import Mathlib

/-!
# Verification of the AI_Trading_Alerts signal engines

Shallow embedding of the two analytical cores of the repository:

* `smc.py` — `SMCDiscountStrategy`: discount-zone + bullish-engulfing +
  volume-gated buy strategy with a bounded signal history;
* `indicators/smc_smart_money.py` — `check_buy_signal`: Smart-Money-Concepts
  structure-break engine (pivots, BOS/CHoCH, confluence filter, order blocks,
  equal levels, EMA trend filter).

Prices, volumes and thresholds are modelled as rationals (`ℚ`); bar
timestamps as integers (`ℤ`).  Python lists become Lean lists; pandas
Series keep their index as an explicit timestamp component where the code
compares index labels.
-/

namespace Trading

/-- Python `max(data)` guarded by `if data else 0`: maximum of a list,
`0` on the empty list (as written in `SMCDiscountStrategy.highest`). -/
def maxD : List ℚ → ℚ
  | [] => 0
  | x :: xs => xs.foldl max x

/-- Python `min(data)` guarded by `if data else 0`: minimum of a list,
`0` on the empty list (as written in `SMCDiscountStrategy.lowest`). -/
def minD : List ℚ → ℚ
  | [] => 0
  | x :: xs => xs.foldl min x

/-- Python slice `data[-p:]`: the last `p` elements; the whole list when
`p = 0` (since `data[-0:]` is `data[0:]`) or when `p ≥ len(data)`. -/
def pySliceLast (l : List ℚ) (p : ℕ) : List ℚ :=
  if p = 0 then l else l.drop (l.length - p)

/-- One logged buy signal: `{'time': ..., 'price': ..., 'volume': ...}`
(`smc.py` line 255).  The dict values are the strings produced by
`timestamp.strftime`, `f"{price:.2f}"` and `str(int(volume))`; the string
rendering happens before the list operations studied here, so entries are
kept as an opaque record of the three rendered fields. -/
structure SignalEntry where
  time : String
  price : String
  volume : String
deriving DecidableEq, Repr

/-- State of one `SMCDiscountStrategy` instance (`smc.py` lines 165-174). -/
structure SMCDiscountStrategy where
  lookback : ℕ
  min_volume : ℚ
  tp_percent : ℚ
  sl_percent : ℚ
  buy_signals : List SignalEntry
  max_signals : ℕ
deriving Repr, DecidableEq

namespace SMCDiscountStrategy

/-- `SMCDiscountStrategy.__init__`: `buy_signals = []`, `max_signals = 5`. -/
def init (lookback : ℕ) (min_volume tp_percent sl_percent : ℚ) :
    SMCDiscountStrategy :=
  { lookback := lookback, min_volume := min_volume,
    tp_percent := tp_percent, sl_percent := sl_percent,
    buy_signals := [], max_signals := 5 }

/-- `SMCDiscountStrategy.highest`: `max(data[-period:])`, with the guard
`if len(data) < period: return max(data) if data else 0`. -/
def highest (s : SMCDiscountStrategy) (data : List ℚ) (period : ℕ) : ℚ :=
  if data.length < period then maxD data
  else maxD (pySliceLast data period)

/-- `SMCDiscountStrategy.lowest`: `min(data[-period:])`, with the guard
`if len(data) < period: return min(data) if data else 0`. -/
def lowest (s : SMCDiscountStrategy) (data : List ℚ) (period : ℕ) : ℚ :=
  if data.length < period then minD data
  else minD (pySliceLast data period)

/-- `SMCDiscountStrategy.get_midline`: `(hh + ll) / 2` over the lookback
window. -/
def get_midline (s : SMCDiscountStrategy) (high_data low_data : List ℚ) : ℚ :=
  let hh := s.highest high_data s.lookback
  let ll := s.lowest low_data s.lookback
  (hh + ll) / 2

/-- `SMCDiscountStrategy.is_in_discount_zone`: `close_price < midline`
(strict). -/
def is_in_discount_zone (s : SMCDiscountStrategy)
    (high_data low_data : List ℚ) (close_price : ℚ) : Bool :=
  let hh := s.highest high_data s.lookback
  let ll := s.lowest low_data s.lookback
  let midline := (hh + ll) / 2
  decide (close_price < midline)

/-- `SMCDiscountStrategy.is_bullish_engulfing` (`smc.py` lines 202-217):
previous bar bearish, current bar bullish, current body strictly contains
the previous body; `False` when either sequence has fewer than 2 points. -/
def is_bullish_engulfing (s : SMCDiscountStrategy)
    (open_prices close_prices : List ℚ) : Bool :=
  if open_prices.length < 2 ∨ close_prices.length < 2 then false
  else
    let o2 := open_prices.getD (open_prices.length - 2) 0
    let o1 := open_prices.getD (open_prices.length - 1) 0
    let c2 := close_prices.getD (close_prices.length - 2) 0
    let c1 := close_prices.getD (close_prices.length - 1) 0
    let prev_bearish := decide (c2 < o2)
    let curr_bullish := decide (c1 > o1)
    let engulfed := decide (o1 < c2) && decide (c1 > o2)
    prev_bearish && curr_bullish && engulfed

/-- `SMCDiscountStrategy.volume_condition_met`: `volume > min_volume`
(strict). -/
def volume_condition_met (s : SMCDiscountStrategy) (volume : ℚ) : Bool :=
  decide (volume > s.min_volume)

/-- `SMCDiscountStrategy.log_buy_signal` (`smc.py` lines 250-265): append
the rendered entry, then `pop(0)` once when the list exceeds
`max_signals`.  The entry argument is the already-rendered dict built at
lines 255-259. -/
def log_buy_signal (s : SMCDiscountStrategy) (entry : SignalEntry) :
    SMCDiscountStrategy :=
  let sigs := s.buy_signals ++ [entry]
  if sigs.length > s.max_signals then
    { s with buy_signals := sigs.drop 1 }
  else
    { s with buy_signals := sigs }

/-- `SMCDiscountStrategy.generate_buy_signal` (`smc.py` lines 223-242):
discount AND engulfing AND volume; logs the signal on success.  Returns
the boolean together with the post-call strategy state. -/
def generate_buy_signal (s : SMCDiscountStrategy)
    (high_data low_data open_prices close_prices : List ℚ)
    (volume : ℚ) (entry : SignalEntry) :
    Bool × SMCDiscountStrategy :=
  if close_prices.length < 2 then (false, s)
  else
    let current_close := close_prices.getD (close_prices.length - 1) 0
    let in_discount := s.is_in_discount_zone high_data low_data current_close
    let bullish_engulfing := s.is_bullish_engulfing open_prices close_prices
    let volume_ok := s.volume_condition_met volume
    let buy_signal := in_discount && bullish_engulfing && volume_ok
    if buy_signal then (buy_signal, s.log_buy_signal entry)
    else (buy_signal, s)

/-- `SMCDiscountStrategy.calculate_tp_sl`. -/
def calculate_tp_sl (s : SMCDiscountStrategy) (entry_price : ℚ) : ℚ × ℚ :=
  (entry_price * (1 + s.tp_percent / 100), entry_price * (1 - s.sl_percent / 100))

end SMCDiscountStrategy

/-! ## A small heap of signal lists, for the aliasing behaviour of
`get_recent_signals`.

Python lists are heap references.  `buy_signals` is one cell;
`get_recent_signals` returns `self.buy_signals.copy()` (`smc.py` line 269),
i.e. it allocates a fresh cell holding the same elements.  The heap is a
list of cells addressed by index. -/

/-- Heap of signal lists; an address is an index into `cells`. -/
structure SigHeap where
  cells : List (List SignalEntry)
deriving Repr

namespace SigHeap

/-- Allocate a fresh cell holding `v`; returns the new heap and the fresh
address. -/
def alloc (h : SigHeap) (v : List SignalEntry) : SigHeap × ℕ :=
  (⟨h.cells ++ [v]⟩, h.cells.length)

/-- Read the list stored at address `a`. -/
def read (h : SigHeap) (a : ℕ) : List SignalEntry :=
  h.cells.getD a []

/-- Overwrite the list stored at address `a` (an in-place Python list
mutation seen from outside). -/
def write (h : SigHeap) (a : ℕ) (v : List SignalEntry) : SigHeap :=
  ⟨h.cells.set a v⟩

end SigHeap

/-- `SMCDiscountStrategy.get_recent_signals`: `return self.buy_signals.copy()`
— allocate a fresh list cell with the same elements as the stored one at
address `addr`, and hand back its address. -/
def get_recent_signals (h : SigHeap) (addr : ℕ) : SigHeap × ℕ :=
  h.alloc (h.read addr)

/-! ## Structure-break engine (`indicators/smc_smart_money.py`) -/

/-- One OHLCV price bar with its index label: `t` is the timestamp
(pandas index label), `o`/`h`/`l`/`c`/`v` the Open/High/Low/Close/Volume
columns. -/
structure Bar where
  t : ℤ
  o : ℚ
  h : ℚ
  l : ℚ
  c : ℚ
  v : ℚ
deriving Repr, Inhabited, DecidableEq

/-- Mean of a pandas column: sum divided by length. -/
def meanList (l : List ℚ) : ℚ := l.sum / l.length

/-- `s.tail(n) if len(s) >= n else s`: the last `n` entries. -/
def tailN (n : ℕ) (l : List (ℤ × ℚ)) : List (ℤ × ℚ) :=
  if l.length ≥ n then l.drop (l.length - n) else l

/-- True range of the `ta` library (`ta.volatility.AverageTrueRange`):
`max(high - low, |high - close[-1]|, |low - close[-1]|)`; at position 0
the shifted close is missing and the NaN-skipping row max leaves
`high - low`. -/
def trueRange (highs lows closes : List ℚ) : List ℚ :=
  (List.range highs.length).map fun i =>
    let h := highs.getD i 0
    let l := lows.getD i 0
    match i with
    | 0 => h - l
    | Nat.succ j =>
        let cs := closes.getD j 0
        max (h - l) (max |h - cs| |l - cs|)

/-- Wilder smoothing tail of the `ta` ATR: from a previous ATR value,
`atr[i] = (atr[i-1]*(w-1) + tr[i]) / w` for each further true-range
value. -/
def atrSmooth (w : ℕ) (prev : ℚ) : List ℚ → List ℚ
  | [] => []
  | x :: xs =>
      let a := (prev * ((w : ℚ) - 1) + x) / w
      a :: atrSmooth w a xs

/-- `ta.volatility.average_true_range(high, low, close, window)`: zeros for
the first `window - 1` positions, the SMA of the first `window` true
ranges at position `window - 1`, Wilder smoothing afterwards.  (The
library indexes `atr[window-1]` unconditionally, so series shorter than
the window are out of its domain; `check_buy_signal` only reaches it with
at least 100 bars.  The short case is completed by zeros.) -/
def average_true_range (highs lows closes : List ℚ) (window : ℕ) : List ℚ :=
  let tr := trueRange highs lows closes
  if tr.length < window then List.replicate tr.length 0
  else
    let seed := (tr.take window).sum / window
    List.replicate (window - 1) (0 : ℚ) ++ [seed] ++ atrSmooth window seed (tr.drop window)

/-- Python slice `series.iloc[i-w : i+w+1]` for a loop position
`w ≤ i < n - w`: the inclusive centred window of width `2w+1`. -/
def windowSlice (vals : List ℚ) (i w : ℕ) : List ℚ :=
  (vals.drop (i - w)).take (2 * w + 1)

/-- Positions marked by `find_pivots` (`smc_smart_money.py` lines 28-40):
the loop `for i in range(window, len(series) - window)` keeps `i` when
`series.iloc[i]` equals the max (for `'high'`) or min (for `'low'`) of the
inclusive window `series.iloc[i-window : i+window+1]`. -/
def pivot_positions (vals : List ℚ) (w : ℕ) (isHigh : Bool) : List ℕ :=
  (List.range' w (vals.length - w - w)).filter fun i =>
    vals.getD i 0 = (if isHigh then maxD else minD) (windowSlice vals i w)

/-- `find_pivots` on an indexed series: the marked positions with their
index labels and values (`pivots.dropna()` keeps them in time order). -/
def find_pivots (s : List (ℤ × ℚ)) (w : ℕ) (isHigh : Bool) : List (ℤ × ℚ) :=
  (pivot_positions (s.map Prod.snd) w isHigh).map fun i => s.getD i (0, 0)

/-- State threaded through the `detect_structure_break` loop
(`smc_smart_money.py` lines 67-70): `current_trend` (0 neutral,
1 bullish, -1 bearish) and the two rolling levels, `None` until the first
qualifying pivot is seen. -/
structure SBState where
  trend : ℤ
  lastHigh : Option ℚ
  lastLow : Option ℚ
deriving Repr, DecidableEq

/-- The per-bar update of `last_significant_high` (lines 76-78): scan the
recent high pivots in order; take a pivot's value when its time is at or
before the bar's time and it exceeds the current value (or none is set). -/
def updHigh (t : ℤ) (pivs : List (ℤ × ℚ)) (acc : Option ℚ) : Option ℚ :=
  pivs.foldl
    (fun a pv =>
      if decide (pv.1 ≤ t) &&
          (match a with
           | none => true
           | some x => decide (pv.2 > x)) then some pv.2 else a)
    acc

/-- The per-bar update of `last_significant_low` (lines 80-82), with
minimum in place of maximum. -/
def updLow (t : ℤ) (pivs : List (ℤ × ℚ)) (acc : Option ℚ) : Option ℚ :=
  pivs.foldl
    (fun a pv =>
      if decide (pv.1 ≤ t) &&
          (match a with
           | none => true
           | some x => decide (pv.2 < x)) then some pv.2 else a)
    acc

/-- One iteration of the `detect_structure_break` loop body
(lines 72-99) on one bar: update the rolling levels, then

* if no significant high is set yet, `continue` (no signal);
* if `close > last_significant_high`: signal exactly when the trend was
  bearish (CHoCH) or neutral (BOS), then set the trend bullish;
* else if a significant low is set and `close < last_significant_low`:
  set the trend bearish, no signal.

Returns the new state and whether `signals.iloc[i]` was set. -/
def sb_step (recentHighs recentLows : List (ℤ × ℚ)) (s : SBState) (bar : Bar) :
    SBState × Bool :=
  let lh := updHigh bar.t recentHighs s.lastHigh
  let ll := updLow bar.t recentLows s.lastLow
  match lh with
  | none => ({ trend := s.trend, lastHigh := lh, lastLow := ll }, false)
  | some hval =>
      if bar.c > hval then
        ({ trend := 1, lastHigh := lh, lastLow := ll },
         decide (s.trend = -1) || decide (s.trend = 0))
      else
        match ll with
        | some lval =>
            if bar.c < lval then
              ({ trend := -1, lastHigh := lh, lastLow := ll }, false)
            else
              ({ trend := s.trend, lastHigh := lh, lastLow := ll }, false)
        | none => ({ trend := s.trend, lastHigh := lh, lastLow := ll }, false)

/-- The `for i in range(len(df))` loop of `detect_structure_break`: thread
the state over the bars in time order, collecting the per-bar signal
flags. -/
def sb_run (recentHighs recentLows : List (ℤ × ℚ)) (s : SBState) :
    List Bar → List Bool
  | [] => []
  | bar :: bars =>
      let step := sb_step recentHighs recentLows s bar
      step.2 :: sb_run recentHighs recentLows step.1 bars

/-- `detect_structure_break` (lines 50-101): all-false when either pivot
set has fewer than 2 entries or the recent pivots (`tail(10)` of each;
their concatenation's length is the sum) number fewer than 3; otherwise
run the trend loop from the neutral state with unset levels. -/
def detect_structure_break (df : List Bar) (highs lows : List (ℤ × ℚ)) :
    List Bool :=
  if highs.length < 2 ∨ lows.length < 2 then List.replicate df.length false
  else
    let recent_highs := tailN 10 highs
    let recent_lows := tailN 10 lows
    if recent_highs.length + recent_lows.length < 3 then
      List.replicate df.length false
    else
      sb_run recent_highs recent_lows ⟨0, none, none⟩ df

/-- `apply_confluence_filter` (lines 110-123): for `i` in
`range(1, len(df))`, clear a flagged bar unless its upper wick
`high - max(close, open)` strictly exceeds its lower wick
`min(close, open) - low`. -/
def apply_confluence_filter (signals : List Bool) (df : List Bar) :
    List Bool :=
  signals.mapIdx fun i s =>
    if 1 ≤ i ∧ i < df.length then
      if s then
        let bar := df.getD i default
        let upper := bar.h - max bar.c bar.o
        let lower := min bar.c bar.o - bar.l
        if upper > lower then s else false
      else s
    else s

/-- `detect_order_blocks` (lines 129-147): for each bar from position 50
on, find the low pivots at or before the bar's time; if any, flag the bar
when its close is above the last such pivot's value and the previous
bar's low was at or below it. -/
def detect_order_blocks (df : List Bar) (pivot_highs pivot_lows : List (ℤ × ℚ)) :
    List Bool :=
  (List.range df.length).map fun i =>
    if 50 ≤ i then
      let recent_lows_before_i :=
        pivot_lows.filter fun pv => decide (pv.1 ≤ (df.getD i default).t)
      match recent_lows_before_i.getLast? with
      | none => false
      | some last =>
          decide ((df.getD i default).c > last.2) &&
          decide ((df.getD (i - 1) default).l ≤ last.2)
    else false

/-- The nested pair loop of `detect_equal_levels` (lines 162-167): for
each pivot and each later pivot in the list, when their values differ by
strictly less than the threshold, record the later pivot's time label. -/
def eq_flag_times : List (ℤ × ℚ) → ℚ → List ℤ
  | [], _ => []
  | p :: rest, thr =>
      (rest.filter fun q => decide (|p.2 - q.2| < thr)).map Prod.fst ++
        eq_flag_times rest thr

/-- `detect_equal_levels` (lines 154-169): threshold is the multiplier
times the mean of the ATR column; only the last 5 low pivots are paired;
a bar is flagged when its index label was recorded for some close pair
(`eq_signals.loc[time2] = True` sets every row carrying that label).  The
`highs` argument is accepted, as in the source, and never read. -/
def detect_equal_levels (df : List Bar) (atrCol : List ℚ)
    (highs lows : List (ℤ × ℚ)) (threshold_multiplier : ℚ) : List Bool :=
  let atr := meanList atrCol
  let threshold := threshold_multiplier * atr
  let recent_lows := tailN 5 lows
  let times := eq_flag_times recent_lows threshold
  df.map fun bar => decide (bar.t ∈ times)

/-- `pandas.ewm(..., adjust=False).mean()` tail recursion:
`y = α·x + (1-α)·prev`. -/
def ewmAdjustFalse (a : ℚ) (prev : ℚ) : List ℚ → List ℚ
  | [] => []
  | x :: xs =>
      let y := a * x + (1 - a) * prev
      y :: ewmAdjustFalse a y xs

/-- The full `ewm(span=w, adjust=False).mean()` value sequence: seeded
with the first observation, `α = 2/(w+1)`. -/
def emaVals (closes : List ℚ) (w : ℕ) : List ℚ :=
  match closes with
  | [] => []
  | x :: xs => x :: ewmAdjustFalse (2 / ((w : ℚ) + 1)) x xs

/-- `ta.trend.ema_indicator(close, window)`:
`close.ewm(span=window, min_periods=window, adjust=False).mean()` — the
first `window - 1` outputs are NaN (`none`), the rest carry the recursive
EMA value. -/
def ema_indicator (closes : List ℚ) (w : ℕ) : List (Option ℚ) :=
  (emaVals closes w).mapIdx fun i v => if i + 1 < w then none else some v

/-- pandas `>` on two float columns: NaN on either side compares false. -/
def gtOpt : Option ℚ → Option ℚ → Bool
  | some a, some b => decide (a > b)
  | _, _ => false

/-- `check_buy_signal` (`smc_smart_money.py` lines 6-195): the length
guard, the ATR column, the four pivot extractions (half-windows
`50 // 2 = 25` and `5 // 2 = 2`), swing and internal structure breaks,
the confluence filter on internal signals, the two order-block streams,
the equal-level stream, the five-way OR, the EMA-20 > EMA-50 trend
filter, and the value on the latest bar. -/
def check_buy_signal (df : List Bar) : Bool :=
  if df.length < 100 then false
  else
    let atrCol :=
      average_true_range (df.map (·.h)) (df.map (·.l)) (df.map (·.c)) 14
    let swing_length : ℕ := 50
    let internal_length : ℕ := 5
    let highSeries := df.map fun b => (b.t, b.h)
    let lowSeries := df.map fun b => (b.t, b.l)
    let swing_highs := find_pivots highSeries (swing_length / 2) true
    let swing_lows := find_pivots lowSeries (swing_length / 2) false
    let internal_highs := find_pivots highSeries (internal_length / 2) true
    let internal_lows := find_pivots lowSeries (internal_length / 2) false
    let swing_bullish_signals := detect_structure_break df swing_highs swing_lows
    let internal_raw := detect_structure_break df internal_highs internal_lows
    let internal_bullish_signals := apply_confluence_filter internal_raw df
    let swing_ob_signals := detect_order_blocks df swing_highs swing_lows
    let internal_ob_signals := detect_order_blocks df internal_highs internal_lows
    let equal_level_signals :=
      detect_equal_levels df atrCol swing_highs swing_lows (1 / 10)
    let combined_signals :=
      List.zipWith (· || ·)
        (List.zipWith (· || ·)
          (List.zipWith (· || ·)
            (List.zipWith (· || ·) swing_bullish_signals internal_bullish_signals)
            swing_ob_signals)
          internal_ob_signals)
        equal_level_signals
    let ema_20 := ema_indicator (df.map (·.c)) 20
    let ema_50 := ema_indicator (df.map (·.c)) 50
    let trend_bullish := List.zipWith gtOpt ema_20 ema_50
    let final_signals := List.zipWith (· && ·) combined_signals trend_bullish
    final_signals.getLastD false

/-- The call as the caller sees it: the boolean result together with the
caller's series after the call.  The function's first action is
`df_copy = df.copy()` (line 20); every later write (`df_copy['atr']`,
`df_copy['ema_20']`, `df_copy['ema_50']`) targets the copy, so the
caller-supplied series is returned unchanged. -/
def check_buy_signal_run (df : List Bar) : Bool × List Bar :=
  (check_buy_signal df, df)

/-! ## Helper lemmas -/

/-- Reading the freshly allocated cell gives back the allocated value. -/
theorem SigHeap.read_alloc_fresh (h : SigHeap) (v : List SignalEntry) :
    (h.alloc v).1.read (h.alloc v).2 = v := by
  simp [SigHeap.alloc, SigHeap.read, List.getElem?_concat_length]

/-- Allocation does not change the contents of a valid existing cell. -/
theorem SigHeap.read_alloc_old (h : SigHeap) (v : List SignalEntry) (a : ℕ)
    (ha : a < h.cells.length) :
    (h.alloc v).1.read a = h.read a := by
  simp [SigHeap.alloc, SigHeap.read, List.getElem?_append_left ha]

/-- Writing one cell does not change the contents of a different cell. -/
theorem SigHeap.read_write_ne (h : SigHeap) (a b : ℕ) (v : List SignalEntry)
    (hab : a ≠ b) :
    (h.write b v).read a = h.read a := by
  simp [SigHeap.write, SigHeap.read, List.getElem?_set_ne (Ne.symm hab)]

/-- The seed is below a `foldl max`. -/
theorem le_foldl_max (x : ℚ) (xs : List ℚ) : x ≤ xs.foldl max x := by
  induction xs generalizing x with
  | nil => exact le_refl x
  | cons a as ih => exact le_trans (le_max_left x a) (ih (max x a))

/-- Every element is below a `foldl max`. -/
theorem le_foldl_max_of_mem {y : ℚ} {xs : List ℚ} (x : ℚ) (h : y ∈ xs) :
    y ≤ xs.foldl max x := by
  induction xs generalizing x with
  | nil => cases h
  | cons a as ih =>
      rcases List.mem_cons.mp h with rfl | hmem
      · exact le_trans (le_max_right x y) (le_foldl_max (max x y) as)
      · exact ih (max x a) hmem

/-- A `foldl max` is the seed or one of the elements. -/
theorem foldl_max_cases (x : ℚ) (xs : List ℚ) :
    xs.foldl max x = x ∨ xs.foldl max x ∈ xs := by
  induction xs generalizing x with
  | nil => exact Or.inl rfl
  | cons a as ih =>
      rcases ih (max x a) with h | h
      · rcases max_choice x a with hx | hx
        · exact Or.inl (by rw [List.foldl_cons, h, hx])
        · exact Or.inr (by rw [List.foldl_cons, h, hx]; exact List.mem_cons_self a as)
      · exact Or.inr (List.mem_cons_of_mem a h)

/-- A `foldl min` is below the seed. -/
theorem foldl_min_le (x : ℚ) (xs : List ℚ) : xs.foldl min x ≤ x := by
  induction xs generalizing x with
  | nil => exact le_refl x
  | cons a as ih => exact le_trans (ih (min x a)) (min_le_left x a)

/-- A `foldl min` is below every element. -/
theorem foldl_min_le_of_mem {y : ℚ} {xs : List ℚ} (x : ℚ) (h : y ∈ xs) :
    xs.foldl min x ≤ y := by
  induction xs generalizing x with
  | nil => cases h
  | cons a as ih =>
      rcases List.mem_cons.mp h with rfl | hmem
      · exact le_trans (foldl_min_le (min x y) as) (min_le_right x y)
      · exact ih (min x a) hmem

/-- A `foldl min` is the seed or one of the elements. -/
theorem foldl_min_cases (x : ℚ) (xs : List ℚ) :
    xs.foldl min x = x ∨ xs.foldl min x ∈ xs := by
  induction xs generalizing x with
  | nil => exact Or.inl rfl
  | cons a as ih =>
      rcases ih (min x a) with h | h
      · rcases min_choice x a with hx | hx
        · exact Or.inl (by rw [List.foldl_cons, h, hx])
        · exact Or.inr (by rw [List.foldl_cons, h, hx]; exact List.mem_cons_self a as)
      · exact Or.inr (List.mem_cons_of_mem a h)

/-- Every element of a list is at most its `maxD`. -/
theorem le_maxD {l : List ℚ} {y : ℚ} (h : y ∈ l) : y ≤ maxD l := by
  match l with
  | [] => cases h
  | x :: xs =>
      rcases List.mem_cons.mp h with rfl | hmem
      · exact le_foldl_max y xs
      · exact le_foldl_max_of_mem x hmem

/-- `maxD` of a nonempty list is one of its elements. -/
theorem maxD_mem {l : List ℚ} (h : l ≠ []) : maxD l ∈ l := by
  match l with
  | [] => exact absurd rfl h
  | x :: xs =>
      rcases foldl_max_cases x xs with hc | hc
      · rw [maxD, hc]; exact List.mem_cons_self x xs
      · exact List.mem_cons_of_mem x hc

/-- `minD` of a list is at most every element. -/
theorem minD_le {l : List ℚ} {y : ℚ} (h : y ∈ l) : minD l ≤ y := by
  match l with
  | [] => cases h
  | x :: xs =>
      rcases List.mem_cons.mp h with rfl | hmem
      · exact foldl_min_le y xs
      · exact foldl_min_le_of_mem x hmem

/-- `minD` of a nonempty list is one of its elements. -/
theorem minD_mem {l : List ℚ} (h : l ≠ []) : minD l ∈ l := by
  match l with
  | [] => exact absurd rfl h
  | x :: xs =>
      rcases foldl_min_cases x xs with hc | hc
      · rw [minD, hc]; exact List.mem_cons_self x xs
      · exact List.mem_cons_of_mem x hc

/-- Indexing into the centred window. -/
theorem windowSlice_getElem? (vals : List ℚ) (i w k : ℕ) (hk : k < 2 * w + 1) :
    (windowSlice vals i w)[k]? = vals[i - w + k]? := by
  rw [windowSlice, List.getElem?_take_of_lt hk, List.getElem?_drop]

/-- The elements of the centred window are exactly the series values at
positions `i - w` through `i + w`. -/
theorem mem_windowSlice {vals : List ℚ} {i w : ℕ} {y : ℚ}
    (hw : w ≤ i) (hlen : i + w < vals.length) :
    y ∈ windowSlice vals i w ↔
      ∃ j, i - w ≤ j ∧ j ≤ i + w ∧ vals.getD j 0 = y := by
  constructor
  · intro hmem
    obtain ⟨k, hk⟩ := List.mem_iff_getElem?.mp hmem
    have hklen : k < (windowSlice vals i w).length := by
      by_contra hcon
      rw [List.getElem?_eq_none (le_of_not_lt hcon)] at hk
      cases hk
    have hkle : k < 2 * w + 1 := by
      have : (windowSlice vals i w).length ≤ 2 * w + 1 := by
        rw [windowSlice]
        simp only [List.length_take, List.length_drop]
        omega
      omega
    rw [windowSlice_getElem? vals i w k hkle] at hk
    refine ⟨i - w + k, Nat.le_add_right _ _, by omega, ?_⟩
    rw [List.getD_eq_getElem?_getD, hk]
    rfl
  · rintro ⟨j, hj1, hj2, hj3⟩
    have hjlen : j < vals.length := by omega
    rw [List.mem_iff_getElem?]
    refine ⟨j - (i - w), ?_⟩
    rw [windowSlice_getElem? vals i w _ (by omega)]
    have hidx : i - w + (j - (i - w)) = j := by omega
    rw [hidx, List.getElem?_eq_getElem hjlen]
    rw [List.getD_eq_getElem?_getD, List.getElem?_eq_getElem hjlen] at hj3
    simp only [Option.getD_some] at hj3
    rw [hj3]

/-- Evaluation of one classifier step on a bar that closes strictly above
the tracked significant high: the trend becomes bullish and the signal
fires exactly from the bearish (CHoCH) or neutral (BOS) trend. -/
theorem sb_step_break_up (rh rl : List (ℤ × ℚ)) (s : SBState) (bar : Bar)
    (hval : ℚ) (hupd : updHigh bar.t rh s.lastHigh = some hval)
    (hgt : bar.c > hval) :
    sb_step rh rl s bar =
      (⟨1, some hval, updLow bar.t rl s.lastLow⟩,
        decide (s.trend = -1) || decide (s.trend = 0)) := by
  unfold sb_step
  rw [hupd]
  simp only [if_pos hgt]

/-- Evaluation of one classifier step on a bar that does not close above
the tracked significant high but closes strictly below the tracked
significant low: the trend becomes bearish, no signal. -/
theorem sb_step_break_down (rh rl : List (ℤ × ℚ)) (s : SBState) (bar : Bar)
    (hval lval : ℚ) (hupd : updHigh bar.t rh s.lastHigh = some hval)
    (hngt : ¬ bar.c > hval) (hlow : updLow bar.t rl s.lastLow = some lval)
    (hlt : bar.c < lval) :
    sb_step rh rl s bar = (⟨-1, some hval, some lval⟩, false) := by
  unfold sb_step
  rw [hupd, hlow]
  simp only [if_neg hngt, if_pos hlt]

/-- Membership in a list of pairs, phrased through `getD`. -/
theorem mem_iff_getD (l : List (ℤ × ℚ)) (q : ℤ × ℚ) :
    q ∈ l ↔ ∃ k, k < l.length ∧ l.getD k (0, 0) = q := by
  rw [List.mem_iff_getElem]
  constructor
  · rintro ⟨n, hn, he⟩
    exact ⟨n, hn, by rw [List.getD_eq_getElem _ _ hn, he]⟩
  · rintro ⟨n, hn, he⟩
    exact ⟨n, hn, by rw [← List.getD_eq_getElem _ _ hn, he]⟩

/-- The time labels recorded by the equal-level pair loop are exactly the
labels of later elements of pairs whose values differ by less than the
threshold. -/
theorem mem_eq_flag_times (l : List (ℤ × ℚ)) (thr : ℚ) (t : ℤ) :
    t ∈ eq_flag_times l thr ↔
      ∃ a b : ℕ, a < b ∧ b < l.length ∧
        |(l.getD a (0, 0)).2 - (l.getD b (0, 0)).2| < thr ∧
        t = (l.getD b (0, 0)).1 := by
  induction l with
  | nil =>
      simp only [eq_flag_times, List.not_mem_nil, false_iff]
      rintro ⟨a, b, -, hb, -⟩
      simp at hb
  | cons p rest ih =>
      rw [eq_flag_times, List.mem_append, ih]
      constructor
      · rintro (hmem | ⟨a, b, hab, hb, hthr, ht⟩)
        · obtain ⟨q, hq, hqt⟩ := List.mem_map.mp hmem
          rw [List.mem_filter] at hq
          obtain ⟨hqmem, hqthr⟩ := hq
          obtain ⟨k, hk, hkq⟩ := (mem_iff_getD rest q).mp hqmem
          refine ⟨0, k + 1, Nat.succ_pos k, by simpa using hk, ?_, ?_⟩
          · simp only [List.getD_cons_zero, List.getD_cons_succ, hkq]
            exact of_decide_eq_true hqthr
          · simp only [List.getD_cons_succ, hkq]
            exact hqt.symm
        · refine ⟨a + 1, b + 1, by omega, by simpa using hb, ?_, ?_⟩
          · simpa only [List.getD_cons_succ] using hthr
          · simpa only [List.getD_cons_succ] using ht
      · rintro ⟨a, b, hab, hb, hthr, ht⟩
        match a, b with
        | 0, b' + 1 =>
            left
            rw [List.mem_map]
            refine ⟨rest.getD b' (0, 0), ?_, ?_⟩
            · rw [List.mem_filter]
              refine ⟨(mem_iff_getD rest _).mpr ⟨b', by simpa using hb, rfl⟩, ?_⟩
              apply decide_eq_true
              simpa only [List.getD_cons_zero, List.getD_cons_succ] using hthr
            · simp only [List.getD_cons_succ] at ht
              exact ht.symm
        | a' + 1, b' + 1 =>
            right
            refine ⟨a', b', by omega, by simpa using hb, ?_, ?_⟩
            · simpa only [List.getD_cons_succ] using hthr
            · simpa only [List.getD_cons_succ] using ht

/-- C2: for `w ≤ i < n - w`, position `i` is extracted as a High pivot
exactly when `series[i]` dominates the whole inclusive window
`series[i-w .. i+w]` (i.e. equals its maximum), and symmetrically as a
Low pivot with the minimum; ties are inclusive, every qualifying
position is marked; and every marked position lies in `[w, n-w)`. -/
theorem C2_pivot_window_extremum (vals : List ℚ) (w i : ℕ)
    (hw : w ≤ i) (hlen : i + w < vals.length) :
    (i ∈ pivot_positions vals w true ↔
      ∀ j, i - w ≤ j → j ≤ i + w → vals.getD j 0 ≤ vals.getD i 0) ∧
    (i ∈ pivot_positions vals w false ↔
      ∀ j, i - w ≤ j → j ≤ i + w → vals.getD i 0 ≤ vals.getD j 0) ∧
    (∀ (b : Bool) (j : ℕ), j ∈ pivot_positions vals w b →
      w ≤ j ∧ j + w < vals.length) := by
  have hself : vals.getD i 0 ∈ windowSlice vals i w :=
    (mem_windowSlice hw hlen).mpr ⟨i, Nat.sub_le i w, Nat.le_add_right i w, rfl⟩
  have hne : windowSlice vals i w ≠ [] := by
    intro hnil
    rw [hnil] at hself
    cases hself
  have hrange : i ∈ List.range' w (vals.length - w - w) :=
    List.mem_range'_1.mpr ⟨hw, by omega⟩
  refine ⟨?_, ?_, ?_⟩
  · have hchar : i ∈ pivot_positions vals w true ↔
        i ∈ List.range' w (vals.length - w - w) ∧
        vals.getD i 0 = maxD (windowSlice vals i w) := by
      rw [pivot_positions, List.mem_filter]
      norm_num
    rw [hchar]
    constructor
    · rintro ⟨-, heq⟩ j hj1 hj2
      have hmem : vals.getD j 0 ∈ windowSlice vals i w :=
        (mem_windowSlice hw hlen).mpr ⟨j, hj1, hj2, rfl⟩
      calc vals.getD j 0 ≤ maxD (windowSlice vals i w) := le_maxD hmem
        _ = vals.getD i 0 := heq.symm
    · intro hdom
      refine ⟨hrange, ?_⟩
      obtain ⟨j, hj1, hj2, hj3⟩ := (mem_windowSlice hw hlen).mp (maxD_mem hne)
      exact le_antisymm (le_maxD hself) (hj3.symm.trans_le (hdom j hj1 hj2))
  · have hchar : i ∈ pivot_positions vals w false ↔
        i ∈ List.range' w (vals.length - w - w) ∧
        vals.getD i 0 = minD (windowSlice vals i w) := by
      rw [pivot_positions, List.mem_filter]
      norm_num
    rw [hchar]
    constructor
    · rintro ⟨-, heq⟩ j hj1 hj2
      have hmem : vals.getD j 0 ∈ windowSlice vals i w :=
        (mem_windowSlice hw hlen).mpr ⟨j, hj1, hj2, rfl⟩
      calc vals.getD i 0 = minD (windowSlice vals i w) := heq
        _ ≤ vals.getD j 0 := minD_le hmem
    · intro hdom
      refine ⟨hrange, ?_⟩
      obtain ⟨j, hj1, hj2, hj3⟩ := (mem_windowSlice hw hlen).mp (minD_mem hne)
      exact le_antisymm (le_of_le_of_eq (hdom j hj1 hj2) hj3) (minD_le hself)
  · intro b j hj
    rw [pivot_positions, List.mem_filter] at hj
    have := List.mem_range'_1.mp hj.1
    omega

/-- Witness for C2 on the tied series `[1, 3, 3, 1]` with `w = 1` at
position `1`. -/
theorem C2_pivot_window_extremum_witness :
    (1 ≤ 1) ∧ (1 + 1 < ([1, 3, 3, 1] : List ℚ).length) ∧
    ((1 ∈ pivot_positions [1, 3, 3, 1] 1 true ↔
      ∀ j, 1 - 1 ≤ j → j ≤ 1 + 1 →
        ([1, 3, 3, 1] : List ℚ).getD j 0 ≤ ([1, 3, 3, 1] : List ℚ).getD 1 0) ∧
    (1 ∈ pivot_positions [1, 3, 3, 1] 1 false ↔
      ∀ j, 1 - 1 ≤ j → j ≤ 1 + 1 →
        ([1, 3, 3, 1] : List ℚ).getD 1 0 ≤ ([1, 3, 3, 1] : List ℚ).getD j 0) ∧
    (∀ (b : Bool) (j : ℕ), j ∈ pivot_positions [1, 3, 3, 1] 1 b →
      1 ≤ j ∧ j + 1 < ([1, 3, 3, 1] : List ℚ).length)) :=
  ⟨le_refl 1, by decide,
    C2_pivot_window_extremum [1, 3, 3, 1] 1 1 (le_refl 1) (by decide)⟩

/-! ## Claims -/

/-- C1: for every input series of fewer than 100 bars, `check_buy_signal`
returns `false`, regardless of the bars' content; as a total Lean
function of the series it raises no exception on this domain. -/
theorem C1_short_series_is_false (df : List Bar) (hlen : df.length < 100) :
    check_buy_signal df = false := by
  unfold check_buy_signal
  rw [if_pos hlen]

/-- Witness for C1 on a concrete one-bar series. -/
theorem C1_short_series_is_false_witness :
    ([(⟨0, 1, 2, 0, 1, 5⟩ : Bar)].length < 100) ∧
      check_buy_signal [⟨0, 1, 2, 0, 1, 5⟩] = false :=
  ⟨by decide, C1_short_series_is_false [⟨0, 1, 2, 0, 1, 5⟩] (by decide)⟩

/-- C4: the discount-zone condition holds exactly when close is strictly
below `midline = (highestHigh + lowestLow)/2` over the trailing lookback
window; close equal to the midline never satisfies it, and
`close = midline - ε` satisfies it for every `ε > 0`. -/
theorem C4_discount_zone_strict (s : SMCDiscountStrategy)
    (high_data low_data : List ℚ) (c ε : ℚ) (hε : 0 < ε) :
    (s.is_in_discount_zone high_data low_data c = true ↔
      c < (s.highest high_data s.lookback + s.lowest low_data s.lookback) / 2) ∧
    s.is_in_discount_zone high_data low_data
      (s.get_midline high_data low_data) = false ∧
    s.is_in_discount_zone high_data low_data
      (s.get_midline high_data low_data - ε) = true := by
  refine ⟨?_, ?_, ?_⟩
  · simp [SMCDiscountStrategy.is_in_discount_zone]
  · simp [SMCDiscountStrategy.is_in_discount_zone, SMCDiscountStrategy.get_midline]
  · simp [SMCDiscountStrategy.is_in_discount_zone, SMCDiscountStrategy.get_midline]
    exact hε

/-- Witness for C4 on a concrete strategy and range. -/
theorem C4_discount_zone_strict_witness :
    ((0 : ℚ) < 1) ∧
    (((SMCDiscountStrategy.init 30 100000 5 2).is_in_discount_zone [10] [0] 3 = true ↔
      (3 : ℚ) < ((SMCDiscountStrategy.init 30 100000 5 2).highest [10] 30 +
        (SMCDiscountStrategy.init 30 100000 5 2).lowest [0] 30) / 2) ∧
    (SMCDiscountStrategy.init 30 100000 5 2).is_in_discount_zone [10] [0]
      ((SMCDiscountStrategy.init 30 100000 5 2).get_midline [10] [0]) = false ∧
    (SMCDiscountStrategy.init 30 100000 5 2).is_in_discount_zone [10] [0]
      ((SMCDiscountStrategy.init 30 100000 5 2).get_midline [10] [0] - 1) = true) :=
  ⟨by norm_num, C4_discount_zone_strict (SMCDiscountStrategy.init 30 100000 5 2)
    [10] [0] 3 1 (by norm_num)⟩

/-- C5: for sequences of length at least 2, the bullish-engulfing
condition holds exactly when the previous bar is strictly bearish, the
current bar strictly bullish, and the current body strictly contains the
previous body; boundary (non-strict) overlaps never trigger. -/
theorem C5_engulfing_strict (s : SMCDiscountStrategy)
    (open_prices close_prices : List ℚ)
    (ho : 2 ≤ open_prices.length) (hc : 2 ≤ close_prices.length) :
    (s.is_bullish_engulfing open_prices close_prices = true ↔
      (close_prices.getD (close_prices.length - 2) 0 <
        open_prices.getD (open_prices.length - 2) 0 ∧
       open_prices.getD (open_prices.length - 1) 0 <
        close_prices.getD (close_prices.length - 1) 0 ∧
       open_prices.getD (open_prices.length - 1) 0 <
        close_prices.getD (close_prices.length - 2) 0 ∧
       open_prices.getD (open_prices.length - 2) 0 <
        close_prices.getD (close_prices.length - 1) 0)) ∧
    ((open_prices.getD (open_prices.length - 1) 0 =
        close_prices.getD (close_prices.length - 2) 0 ∨
      close_prices.getD (close_prices.length - 1) 0 =
        open_prices.getD (open_prices.length - 2) 0) →
      s.is_bullish_engulfing open_prices close_prices = false) := by
  have hguard : ¬(open_prices.length < 2 ∨ close_prices.length < 2) := by
    push_neg
    exact ⟨ho, hc⟩
  constructor
  · unfold SMCDiscountStrategy.is_bullish_engulfing
    rw [if_neg hguard]
    simp only [Bool.and_eq_true, decide_eq_true_eq]
    constructor
    · rintro ⟨⟨h1, h2⟩, h3, h4⟩
      exact ⟨h1, h2, h3, h4⟩
    · rintro ⟨h1, h2, h3, h4⟩
      exact ⟨⟨h1, h2⟩, h3, h4⟩
  · intro hb
    unfold SMCDiscountStrategy.is_bullish_engulfing
    rw [if_neg hguard]
    rcases hb with hb | hb
    · rw [hb]
      simp
    · rw [hb]
      simp

/-- Witness for C5: a strictly engulfing pair of bars. -/
theorem C5_engulfing_strict_witness :
    (2 ≤ ([5, 1] : List ℚ).length) ∧ (2 ≤ ([2, 6] : List ℚ).length) ∧
    (((SMCDiscountStrategy.init 30 100000 5 2).is_bullish_engulfing
        [5, 1] [2, 6] = true ↔
      (([2, 6] : List ℚ).getD 0 0 < ([5, 1] : List ℚ).getD 0 0 ∧
       ([5, 1] : List ℚ).getD 1 0 < ([2, 6] : List ℚ).getD 1 0 ∧
       ([5, 1] : List ℚ).getD 1 0 < ([2, 6] : List ℚ).getD 0 0 ∧
       ([5, 1] : List ℚ).getD 0 0 < ([2, 6] : List ℚ).getD 1 0)) ∧
    ((([5, 1] : List ℚ).getD 1 0 = ([2, 6] : List ℚ).getD 0 0 ∨
      ([2, 6] : List ℚ).getD 1 0 = ([5, 1] : List ℚ).getD 0 0) →
      (SMCDiscountStrategy.init 30 100000 5 2).is_bullish_engulfing
        [5, 1] [2, 6] = false)) :=
  ⟨by decide, by decide,
    C5_engulfing_strict (SMCDiscountStrategy.init 30 100000 5 2)
      [5, 1] [2, 6] (by decide) (by decide)⟩

/-- C7: the signal history stays bounded at 5 entries, and appending a
6th entry to a full history leaves exactly 5 entries with the oldest
removed and the newest last. -/
theorem C7_history_fifo (s : SMCDiscountStrategy) (e : SignalEntry)
    (hmax : s.max_signals = 5) :
    (s.buy_signals.length ≤ 5 →
      (s.log_buy_signal e).buy_signals.length ≤ 5) ∧
    (s.buy_signals.length = 5 →
      (s.log_buy_signal e).buy_signals = s.buy_signals.tail ++ [e] ∧
      (s.log_buy_signal e).buy_signals.length = 5 ∧
      (s.log_buy_signal e).buy_signals.getLast? = some e) := by
  constructor
  · intro hle
    unfold SMCDiscountStrategy.log_buy_signal
    rw [hmax]
    by_cases hgt : (s.buy_signals ++ [e]).length > 5
    · rw [if_pos hgt]
      simp only [List.length_drop, List.length_append, List.length_singleton] at hgt ⊢
      omega
    · rw [if_neg hgt]
      simp only [List.length_append, List.length_singleton] at hgt ⊢
      omega
  · intro hfull
    obtain ⟨a, rest, hcons⟩ : ∃ a rest, s.buy_signals = a :: rest := by
      cases hsig : s.buy_signals with
      | nil => rw [hsig] at hfull; simp at hfull
      | cons a rest => exact ⟨a, rest, rfl⟩
    have hgt : (s.buy_signals ++ [e]).length > 5 := by
      simp [hfull]
    unfold SMCDiscountStrategy.log_buy_signal
    rw [hmax, if_pos hgt]
    refine ⟨?_, ?_, ?_⟩
    · rw [hcons]
      rfl
    · simp only [List.length_drop, List.length_append, List.length_singleton, hfull]
    · rw [hcons]
      simp [List.getLast?_concat]

/-- Witness for C7: a full 5-entry history plus a 6th entry. -/
theorem C7_history_fifo_witness :
    ((⟨30, 100000, 5, 2,
        [⟨"t1", "p", "v"⟩, ⟨"t2", "p", "v"⟩, ⟨"t3", "p", "v"⟩,
         ⟨"t4", "p", "v"⟩, ⟨"t5", "p", "v"⟩], 5⟩ :
        SMCDiscountStrategy).max_signals = 5) ∧
    ((⟨30, 100000, 5, 2,
        [⟨"t1", "p", "v"⟩, ⟨"t2", "p", "v"⟩, ⟨"t3", "p", "v"⟩,
         ⟨"t4", "p", "v"⟩, ⟨"t5", "p", "v"⟩], 5⟩ :
        SMCDiscountStrategy).log_buy_signal ⟨"t6", "p", "v"⟩).buy_signals =
      [⟨"t2", "p", "v"⟩, ⟨"t3", "p", "v"⟩, ⟨"t4", "p", "v"⟩,
       ⟨"t5", "p", "v"⟩, ⟨"t6", "p", "v"⟩] := by
  refine ⟨rfl, ?_⟩
  have h := C7_history_fifo
    (⟨30, 100000, 5, 2,
      [⟨"t1", "p", "v"⟩, ⟨"t2", "p", "v"⟩, ⟨"t3", "p", "v"⟩,
       ⟨"t4", "p", "v"⟩, ⟨"t5", "p", "v"⟩], 5⟩ : SMCDiscountStrategy)
    ⟨"t6", "p", "v"⟩ rfl
  rw [(h.2 rfl).1]
  rfl

/-- C3 counterexample: the claim "a bar whose close is strictly below the
tracked last significant low sets the trend Bearish and never emits any
signal" is false as stated.  With recent high pivots of value 1 and
recent low pivots of value 5, the bar at time 2 closing at 3 satisfies
`close < lastSignificantLow` (3 < 5), yet from the Neutral start the
classifier emits a signal and sets the trend Bullish, because the
close-above-high branch is tested first and wins. -/
theorem C3_below_low_emits_counterexample :
    updLow 2 [((0 : ℤ), (5 : ℚ)), (1, 5)] none = some 5 ∧
    ((3 : ℚ) < 5) ∧
    sb_step [((0 : ℤ), (1 : ℚ)), (1, 1)] [((0 : ℤ), (5 : ℚ)), (1, 5)]
      ⟨0, none, none⟩ ⟨2, 3, 3, 3, 3, 0⟩ = (⟨1, some 1, some 5⟩, true) ∧
    detect_structure_break [⟨2, 3, 3, 3, 3, 0⟩]
      [((0 : ℤ), (1 : ℚ)), (1, 1)] [((0 : ℤ), (5 : ℚ)), (1, 5)] = [true] := by
  refine ⟨?_, by norm_num, ?_, ?_⟩
  · simp [updLow]
  · simp [sb_step, updHigh, updLow]
  · simp [detect_structure_break, tailN, sb_run, sb_step, updHigh, updLow]

/-- C3 (amended): in the structure-break classifier, a bar closing
strictly above the tracked last significant high emits a signal exactly
when the trend is Bearish (-1, CHoCH) or Neutral (0, BOS) — hence
nothing when already Bullish — after which the trend is Bullish; a bar
that does **not** close above the tracked high and closes strictly below
the tracked last significant low sets the trend Bearish and emits
nothing; and after a close above the tracked high, a consecutive second
close above the tracked high emits no second signal. -/
theorem C3_structure_break_trend (rh rl : List (ℤ × ℚ)) (s : SBState)
    (bar bar' : Bar) :
    (∀ hval : ℚ, updHigh bar.t rh s.lastHigh = some hval → bar.c > hval →
      ((sb_step rh rl s bar).2 = true ↔ (s.trend = -1 ∨ s.trend = 0)) ∧
      (sb_step rh rl s bar).1.trend = 1) ∧
    (∀ hval lval : ℚ, updHigh bar.t rh s.lastHigh = some hval →
      ¬ bar.c > hval → updLow bar.t rl s.lastLow = some lval →
      bar.c < lval →
      (sb_step rh rl s bar).2 = false ∧
      (sb_step rh rl s bar).1.trend = -1) ∧
    (∀ hval hval' : ℚ, updHigh bar.t rh s.lastHigh = some hval →
      bar.c > hval →
      updHigh bar'.t rh (sb_step rh rl s bar).1.lastHigh = some hval' →
      bar'.c > hval' →
      (sb_step rh rl (sb_step rh rl s bar).1 bar').2 = false) := by
  refine ⟨?_, ?_, ?_⟩
  · intro hval hupd hgt
    rw [sb_step_break_up rh rl s bar hval hupd hgt]
    constructor
    · simp
    · rfl
  · intro hval lval hupd hngt hlow hlt
    rw [sb_step_break_down rh rl s bar hval lval hupd hngt hlow hlt]
    exact ⟨rfl, rfl⟩
  · intro hval hval' hupd hgt hupd' hgt'
    rw [sb_step_break_up rh rl _ bar' hval' hupd' hgt']
    have htrend : (sb_step rh rl s bar).1.trend = 1 := by
      rw [sb_step_break_up rh rl s bar hval hupd hgt]
    rw [htrend]
    simp

/-- Witness for C3 (amended): the bullish branch and the no-re-emission
branch at a bar closing at 2 above tracked high 1, then another; and the
bearish branch at a bar closing at -1 below tracked low 0. -/
theorem C3_structure_break_trend_witness :
    (updHigh 2 [((0 : ℤ), (1 : ℚ)), (1, 1)] none = some 1) ∧
    ((2 : ℚ) > 1) ∧
    (((sb_step [((0 : ℤ), (1 : ℚ)), (1, 1)] [((0 : ℤ), (0 : ℚ)), (1, 0)]
        ⟨0, none, none⟩ ⟨2, 2, 2, 2, 2, 0⟩).2 = true ↔
      (((0 : ℤ) = -1) ∨ ((0 : ℤ) = 0))) ∧
    (sb_step [((0 : ℤ), (1 : ℚ)), (1, 1)] [((0 : ℤ), (0 : ℚ)), (1, 0)]
        ⟨0, none, none⟩ ⟨2, 2, 2, 2, 2, 0⟩).1.trend = 1) ∧
    ((sb_step [((0 : ℤ), (1 : ℚ)), (1, 1)] [((0 : ℤ), (0 : ℚ)), (1, 0)]
        (sb_step [((0 : ℤ), (1 : ℚ)), (1, 1)] [((0 : ℤ), (0 : ℚ)), (1, 0)]
          ⟨0, none, none⟩ ⟨2, 2, 2, 2, 2, 0⟩).1 ⟨3, 3, 3, 3, 3, 0⟩).2 = false) ∧
    ((sb_step [((0 : ℤ), (1 : ℚ)), (1, 1)] [((0 : ℤ), (0 : ℚ)), (1, 0)]
        ⟨0, none, none⟩ ⟨2, 2, 2, (-1 : ℚ), (-1 : ℚ), 0⟩).2 = false ∧
    (sb_step [((0 : ℤ), (1 : ℚ)), (1, 1)] [((0 : ℤ), (0 : ℚ)), (1, 0)]
        ⟨0, none, none⟩ ⟨2, 2, 2, (-1 : ℚ), (-1 : ℚ), 0⟩).1.trend = -1) := by
  have hupd : updHigh 2 [((0 : ℤ), (1 : ℚ)), (1, 1)] none = some 1 := by
    simp [updHigh]
  have hlow : updLow 2 [((0 : ℤ), (0 : ℚ)), (1, 0)] none = some 0 := by
    simp [updLow]
  have h1 := C3_structure_break_trend [((0 : ℤ), (1 : ℚ)), (1, 1)]
    [((0 : ℤ), (0 : ℚ)), (1, 0)] ⟨0, none, none⟩ ⟨2, 2, 2, 2, 2, 0⟩
    ⟨3, 3, 3, 3, 3, 0⟩
  have h2 := C3_structure_break_trend [((0 : ℤ), (1 : ℚ)), (1, 1)]
    [((0 : ℤ), (0 : ℚ)), (1, 0)] ⟨0, none, none⟩
    ⟨2, 2, 2, (-1 : ℚ), (-1 : ℚ), 0⟩ ⟨3, 3, 3, 3, 3, 0⟩
  have hupd' : updHigh 3 [((0 : ℤ), (1 : ℚ)), (1, 1)]
      (sb_step [((0 : ℤ), (1 : ℚ)), (1, 1)] [((0 : ℤ), (0 : ℚ)), (1, 0)]
        ⟨0, none, none⟩ ⟨2, 2, 2, 2, 2, 0⟩).1.lastHigh = some 1 := by
    rw [sb_step_break_up _ _ _ _ 1 hupd (by norm_num)]
    simp [updHigh]
  refine ⟨hupd, by norm_num,
    h1.1 1 hupd (by norm_num),
    h1.2.2 1 1 hupd (by norm_num) hupd' (by norm_num),
    h2.2.1 1 0 hupd (by norm_num) hlow (by norm_num)⟩

/-- C6: a bar carries the equal-level flag exactly when its index label
is the label of the later pivot of a pair among the most recent 5 low
pivots whose values differ by strictly less than
`0.1 × mean(ATR-14 over the whole series)`; and the high-pivot argument
contributes nothing to the result. -/
theorem C6_equal_lows (df : List Bar) (highs highs' lows : List (ℤ × ℚ))
    (i : ℕ) (hi : i < df.length) :
    ((detect_equal_levels df
        (average_true_range (df.map (·.h)) (df.map (·.l)) (df.map (·.c)) 14)
        highs lows (1 / 10)).getD i false = true ↔
      ∃ a b : ℕ, a < b ∧ b < (tailN 5 lows).length ∧
        |((tailN 5 lows).getD a (0, 0)).2 - ((tailN 5 lows).getD b (0, 0)).2| <
          (1 / 10) * meanList
            (average_true_range (df.map (·.h)) (df.map (·.l)) (df.map (·.c)) 14) ∧
        (df.getD i default).t = ((tailN 5 lows).getD b (0, 0)).1) ∧
    detect_equal_levels df
        (average_true_range (df.map (·.h)) (df.map (·.l)) (df.map (·.c)) 14)
        highs lows (1 / 10) =
      detect_equal_levels df
        (average_true_range (df.map (·.h)) (df.map (·.l)) (df.map (·.c)) 14)
        highs' lows (1 / 10) := by
  constructor
  · have hmap : i < (df.map fun bar =>
        decide (bar.t ∈ eq_flag_times (tailN 5 lows)
          ((1 / 10) * meanList (average_true_range (df.map (·.h))
            (df.map (·.l)) (df.map (·.c)) 14)))).length := by
      simpa using hi
    rw [detect_equal_levels, List.getD_eq_getElem _ _ hmap, List.getElem_map,
      decide_eq_true_eq, mem_eq_flag_times, List.getD_eq_getElem df default hi]
  · rfl

/-- Witness for C6 on a one-bar series with empty pivot sets. -/
theorem C6_equal_lows_witness :
    (0 < ([(⟨5, 1, 1, 1, 1, 1⟩ : Bar)] : List Bar).length) ∧
    (((detect_equal_levels [(⟨5, 1, 1, 1, 1, 1⟩ : Bar)]
        (average_true_range ([(⟨5, 1, 1, 1, 1, 1⟩ : Bar)].map (·.h))
          ([(⟨5, 1, 1, 1, 1, 1⟩ : Bar)].map (·.l))
          ([(⟨5, 1, 1, 1, 1, 1⟩ : Bar)].map (·.c)) 14)
        [] [] (1 / 10)).getD 0 false = true ↔
      ∃ a b : ℕ, a < b ∧ b < (tailN 5 []).length ∧
        |((tailN 5 []).getD a (0, 0)).2 - ((tailN 5 []).getD b (0, 0)).2| <
          (1 / 10) * meanList
            (average_true_range ([(⟨5, 1, 1, 1, 1, 1⟩ : Bar)].map (·.h))
              ([(⟨5, 1, 1, 1, 1, 1⟩ : Bar)].map (·.l))
              ([(⟨5, 1, 1, 1, 1, 1⟩ : Bar)].map (·.c)) 14) ∧
        (([(⟨5, 1, 1, 1, 1, 1⟩ : Bar)] : List Bar).getD 0 default).t =
          ((tailN 5 []).getD b (0, 0)).1) ∧
    detect_equal_levels [(⟨5, 1, 1, 1, 1, 1⟩ : Bar)]
        (average_true_range ([(⟨5, 1, 1, 1, 1, 1⟩ : Bar)].map (·.h))
          ([(⟨5, 1, 1, 1, 1, 1⟩ : Bar)].map (·.l))
          ([(⟨5, 1, 1, 1, 1, 1⟩ : Bar)].map (·.c)) 14)
        [] [] (1 / 10) =
      detect_equal_levels [(⟨5, 1, 1, 1, 1, 1⟩ : Bar)]
        (average_true_range ([(⟨5, 1, 1, 1, 1, 1⟩ : Bar)].map (·.h))
          ([(⟨5, 1, 1, 1, 1, 1⟩ : Bar)].map (·.l))
          ([(⟨5, 1, 1, 1, 1, 1⟩ : Bar)].map (·.c)) 14)
        [((0 : ℤ), (2 : ℚ))] [] (1 / 10)) :=
  ⟨by decide, C6_equal_lows [(⟨5, 1, 1, 1, 1, 1⟩ : Bar)] [] [((0 : ℤ), (2 : ℚ))]
    [] 0 (by decide)⟩

/-- C9: `check_buy_signal` is deterministic (two calls on an identical
series give identical outputs) and pure (the caller's series after the
call, as modelled by `check_buy_signal_run` following the `df.copy()` at
line 20, is the series that was passed in). -/
theorem C9_deterministic_pure (df : List Bar) :
    check_buy_signal df = check_buy_signal df ∧
    (check_buy_signal_run df).2 = df ∧
    (check_buy_signal_run df).1 = check_buy_signal df :=
  ⟨rfl, rfl, rfl⟩

/-- C10: `get_recent_signals` hands back a fresh cell: its address is not
the stored one, its contents equal the stored history, overwriting it
leaves the stored history unchanged, and a subsequent call still returns
the original contents. -/
theorem C10_returns_fresh_copy (h : SigHeap) (addr : ℕ)
    (haddr : addr < h.cells.length) (v : List SignalEntry) :
    ((get_recent_signals h addr).2 ≠ addr) ∧
    ((get_recent_signals h addr).1.read (get_recent_signals h addr).2 =
      h.read addr) ∧
    (((get_recent_signals h addr).1.write (get_recent_signals h addr).2 v).read
      addr = h.read addr) ∧
    ((get_recent_signals
        ((get_recent_signals h addr).1.write (get_recent_signals h addr).2 v)
        addr).1.read
      (get_recent_signals
        ((get_recent_signals h addr).1.write (get_recent_signals h addr).2 v)
        addr).2 = h.read addr) := by
  have hfresh : (get_recent_signals h addr).2 = h.cells.length := rfl
  have hne : (get_recent_signals h addr).2 ≠ addr := by
    rw [hfresh]
    omega
  have hread : ((get_recent_signals h addr).1.write
      (get_recent_signals h addr).2 v).read addr = h.read addr := by
    rw [SigHeap.read_write_ne _ _ _ _ (Ne.symm hne)]
    exact SigHeap.read_alloc_old h _ addr haddr
  refine ⟨hne, SigHeap.read_alloc_fresh h _, hread, ?_⟩
  simp only [get_recent_signals]
  rw [SigHeap.read_alloc_fresh]
  exact hread

/-- Witness for C10 on a one-cell heap. -/
theorem C10_returns_fresh_copy_witness :
    (0 < (⟨[[⟨"t", "p", "v"⟩]]⟩ : SigHeap).cells.length) ∧
    (((get_recent_signals ⟨[[⟨"t", "p", "v"⟩]]⟩ 0).2 ≠ 0) ∧
    ((get_recent_signals ⟨[[⟨"t", "p", "v"⟩]]⟩ 0).1.read
        (get_recent_signals ⟨[[⟨"t", "p", "v"⟩]]⟩ 0).2 =
      SigHeap.read ⟨[[⟨"t", "p", "v"⟩]]⟩ 0) ∧
    (((get_recent_signals ⟨[[⟨"t", "p", "v"⟩]]⟩ 0).1.write
        (get_recent_signals ⟨[[⟨"t", "p", "v"⟩]]⟩ 0).2 []).read 0 =
      SigHeap.read ⟨[[⟨"t", "p", "v"⟩]]⟩ 0) ∧
    ((get_recent_signals
        ((get_recent_signals ⟨[[⟨"t", "p", "v"⟩]]⟩ 0).1.write
          (get_recent_signals ⟨[[⟨"t", "p", "v"⟩]]⟩ 0).2 []) 0).1.read
      (get_recent_signals
        ((get_recent_signals ⟨[[⟨"t", "p", "v"⟩]]⟩ 0).1.write
          (get_recent_signals ⟨[[⟨"t", "p", "v"⟩]]⟩ 0).2 []) 0).2 =
      SigHeap.read ⟨[[⟨"t", "p", "v"⟩]]⟩ 0)) :=
  ⟨by decide, C10_returns_fresh_copy ⟨[[⟨"t", "p", "v"⟩]]⟩ 0 (by decide) []⟩

/-- C8: the code performs no input validation.  On mismatched sequence
lengths (one open price against two close prices, empty high/low data)
the discount engine's `generate_buy_signal` runs the range and pattern
math on the defaults and returns a normal `false` result, instead of
rejecting the input with an error before any computation. -/
theorem C8_no_input_validation :
    (SMCDiscountStrategy.init 30 100000 5 2).generate_buy_signal
      [] [] [5] [1, 2] 200000 ⟨"t", "p", "v"⟩ =
      (false, SMCDiscountStrategy.init 30 100000 5 2) := by
  unfold SMCDiscountStrategy.generate_buy_signal
  norm_num [SMCDiscountStrategy.init, SMCDiscountStrategy.is_in_discount_zone,
    SMCDiscountStrategy.is_bullish_engulfing,
    SMCDiscountStrategy.volume_condition_met, SMCDiscountStrategy.highest,
    SMCDiscountStrategy.lowest, maxD, minD, pySliceLast]

end Trading
